import Mathlib

/-!
Shallow embedding of the js-daterange library (src/index.ts, the later Period
variant embedded in src/types/enums.ts, and the timeAgo utility), together with
theorems settling the specification claims.

Modelling conventions:
 - an instant is an integer count of milliseconds since the Unix epoch;
 - a dayjs value in utcOffset mode is an instant plus a fixed offset in
   minutes (the utc/timezone plugins; no DST inside a fixed-offset value);
 - calendar arithmetic (start/end of day and month, day-of-week) is the
   proleptic Gregorian calendar, via Howard Hinnant's civil-date algorithms,
   which is what the date library computes;
 - the Intl collaborators are modelled by their outputs: the resolved short
   timezone name is an explicit `Option String` argument, and the relative
   time renderer receives the (unit, value) pair the code passes to it;
 - JS exceptions are `Except String`.
-/

namespace JsDaterange

/-- Gregorian civil date (year, month 1..12, day-of-month) from a day count
since 1970-01-01 (Hinnant's civil_from_days; within an era every division is
on nonnegative numbers, so floor division agrees with the algorithm). -/
def civilFromDays (z : Int) : Int × Int × Int :=
  let z2 := z + 719468
  let era := z2.fdiv 146097
  let doe := z2 - era * 146097
  let yoe := (doe - doe.fdiv 1460 + doe.fdiv 36524 - doe.fdiv 146096).fdiv 365
  let y := yoe + era * 400
  let doy := doe - (365 * yoe + yoe.fdiv 4 - yoe.fdiv 100)
  let mp := (5 * doy + 2).fdiv 153
  let d := doy - (153 * mp + 2).fdiv 5 + 1
  let m := mp + (if mp < 10 then 3 else -9)
  (y + (if m ≤ 2 then 1 else 0), m, d)

/-- Day count since 1970-01-01 of a Gregorian civil date (Hinnant's
days_from_civil). -/
def daysFromCivil (y m d : Int) : Int :=
  let y2 := y - (if m ≤ 2 then 1 else 0)
  let era := y2.fdiv 400
  let yoe := y2 - era * 400
  let doy := (153 * (m + (if 2 < m then -3 else 9)) + 2).fdiv 5 + d - 1
  let doe := yoe * 365 + yoe.fdiv 4 - yoe.fdiv 100 + doy
  era * 146097 + doe - 719468

/-- Number of days in a civil month. -/
def daysInMonth (y m : Int) : Int :=
  (if m = 12 then daysFromCivil (y + 1) 1 1 else daysFromCivil y (m + 1) 1) -
    daysFromCivil y m 1

/-- A dayjs value in utcOffset mode: instant in ms since the epoch plus a
fixed UTC offset in minutes. -/
structure Dayjs where
  ms : Int
  offset : Int
deriving DecidableEq, Repr

/-- Local milliseconds: the instant shifted by the configured offset. -/
def Dayjs.localMs (d : Dayjs) : Int := d.ms + d.offset * 60000

/-- Local calendar day index (days since 1970-01-01 in the configured
offset). -/
def Dayjs.localDay (d : Dayjs) : Int := d.localMs.fdiv 86400000

/-- Local time of day in milliseconds (0 .. 86399999). -/
def Dayjs.localTimeOfDay (d : Dayjs) : Int := d.localMs - d.localDay * 86400000

/-- Local day of week, 0 = Sunday .. 6 = Saturday (1970-01-01 was a
Thursday), as JS Date.getDay and the dayjs internal $W field. -/
def Dayjs.dayOfWeek (d : Dayjs) : Int := (d.localDay + 4).emod 7

/-- The dayjs() call: the current instant (offset starts irrelevant; every
call site immediately applies .utcOffset). -/
def dayjsNow (now : Int) : Dayjs := ⟨now, 0⟩

/-- The .utcOffset(input) setter of the utc plugin: keeps the instant,
changes the offset. (The library treats magnitudes up to 16 as hours; every
offset this package stores is 0 or a whole-hour multiple of 60 minutes, for
which the two readings give the same effective offset, so the offset is taken
at face value in minutes.) -/
def Dayjs.utcOffset (d : Dayjs) (input : Int) : Dayjs := ⟨d.ms, input⟩

/-- The .subtract(n, "day") call: calendar-day arithmetic, which on a
fixed-offset value is exactly n times 24 hours. -/
def Dayjs.subtractDays (d : Dayjs) (n : Int) : Dayjs :=
  ⟨d.ms - n * 86400000, d.offset⟩

/-- The .startOf("day") call: local time of day set to 00:00:00.000. -/
def Dayjs.startOfDay (d : Dayjs) : Dayjs :=
  ⟨d.localDay * 86400000 - d.offset * 60000, d.offset⟩

/-- The .endOf("day") call: local time of day set to 23:59:59.999. -/
def Dayjs.endOfDay (d : Dayjs) : Dayjs :=
  ⟨d.localDay * 86400000 + 86399999 - d.offset * 60000, d.offset⟩

/-- The .day(n) setter: moves to day-of-week n within the Sunday-started
week of the value (dayjs sets the date to date + (n - dayOfWeek); n outside
0..6 lands in an adjacent week). Time of day is preserved. -/
def Dayjs.day (d : Dayjs) (n : Int) : Dayjs :=
  ⟨d.ms + (n - d.dayOfWeek) * 86400000, d.offset⟩

/-- The .weekday(n) call of the weekday plugin: with the default en locale
weekStart is 0 (Sunday), so the locale weekday index equals dayOfWeek and
weekday(n) adds (n - dayOfWeek) days. Time of day is preserved. -/
def Dayjs.weekday (d : Dayjs) (n : Int) : Dayjs :=
  ⟨d.ms + (n - d.dayOfWeek) * 86400000, d.offset⟩

/-- The .startOf("month") call: first day of the local month at
00:00:00.000. -/
def Dayjs.startOfMonth (d : Dayjs) : Dayjs :=
  let c := civilFromDays d.localDay
  ⟨daysFromCivil c.1 c.2.1 1 * 86400000 - d.offset * 60000, d.offset⟩

/-- The .endOf("month") call: last day of the local month at 23:59:59.999. -/
def Dayjs.endOfMonth (d : Dayjs) : Dayjs :=
  let c := civilFromDays d.localDay
  ⟨daysFromCivil c.1 c.2.1 (daysInMonth c.1 c.2.1) * 86400000 + 86399999 -
      d.offset * 60000,
    d.offset⟩

/-- The .subtract(n, "month") call: dayjs month arithmetic clamps the
day-of-month to the length of the target month and preserves the time of
day. -/
def Dayjs.subtractMonths (d : Dayjs) (n : Int) : Dayjs :=
  let day := d.localDay
  let tod := d.localMs - day * 86400000
  let c := civilFromDays day
  let total := c.1 * 12 + (c.2.1 - 1) - n
  let y := total.fdiv 12
  let m := total.emod 12 + 1
  let dd := min c.2.2 (daysInMonth y m)
  ⟨daysFromCivil y m dd * 86400000 + tod - d.offset * 60000, d.offset⟩

/-- The DateFormat enum of src/types/enums.ts. -/
inductive DateFormat where
| RFC3339
| YYYY_MM_DD
deriving DecidableEq, Repr

/-- Left-pads the decimal rendering of a natural number with zeros. -/
def padNat (width n : Nat) : String :=
  let s := toString n
  if width ≤ s.length then s
  else String.mk (List.replicate (width - s.length) '0') ++ s

/-- Zero-padded rendering of an integer. -/
def padInt (width : Nat) (n : Int) : String :=
  if n < 0 then "-" ++ padNat width n.natAbs else padNat width n.natAbs

/-- The .format(pattern) call for the two DateFormat patterns. The RFC3339
pattern spells its fraction "SSSSSS", which the library tokenizer reads as
the three-digit millisecond token twice, and a literal Z. -/
def Dayjs.format (d : Dayjs) (fmt : DateFormat) : String :=
  let day := d.localDay
  let tod := d.localMs - day * 86400000
  let c := civilFromDays day
  let dateStr := padInt 4 c.1 ++ "-" ++ padInt 2 c.2.1 ++ "-" ++ padInt 2 c.2.2
  match fmt with
  | .YYYY_MM_DD => dateStr
  | .RFC3339 =>
    let ms := padInt 3 (tod.emod 1000)
    dateStr ++ "T" ++ padInt 2 (tod.fdiv 3600000) ++ ":" ++
      padInt 2 ((tod.fdiv 60000).emod 60) ++ ":" ++
      padInt 2 ((tod.fdiv 1000).emod 60) ++ "." ++ ms ++ ms ++ "Z"

/-- The DateRange result object: both boundaries rendered as strings. -/
structure DateRange where
  start : String
  «end» : String
deriving DecidableEq, Repr

/-- The Period class state: the offset computed at construction (absent when
no timezone was given; every method reads it with a ?? 0 fallback) and the
configured output format. -/
structure Period where
  utcOffset : Option Int
  dateformat : DateFormat

/-- Instant of getToday's start: dayjs().utcOffset(o).startOf("day"). -/
def getTodayStart (p : Period) (now : Int) : Dayjs :=
  ((dayjsNow now).utcOffset (p.utcOffset.getD 0)).startOfDay

/-- Instant of getToday's end: dayjs().utcOffset(o).endOf("day"). -/
def getTodayEnd (p : Period) (now : Int) : Dayjs :=
  ((dayjsNow now).utcOffset (p.utcOffset.getD 0)).endOfDay

/-- Period.getToday of src/index.ts (identical in src/types/enums.ts). -/
def Period.getToday (p : Period) (now : Int) : DateRange :=
  ⟨(getTodayStart p now).format p.dateformat,
    (getTodayEnd p now).format p.dateformat⟩

/-- Instant computed by getYesterday of src/index.ts:
dayjs().utcOffset(o).subtract(1, "day"), with no startOf or endOf call; the
method formats this single value and returns it as both boundaries. -/
def getYesterdayInstant (p : Period) (now : Int) : Dayjs :=
  ((dayjsNow now).utcOffset (p.utcOffset.getD 0)).subtractDays 1

/-- Period.getYesterday of src/index.ts: start and end are the same
formatted string. -/
def Period.getYesterday (p : Period) (now : Int) : DateRange :=
  let yesterday := (getYesterdayInstant p now).format p.dateformat
  ⟨yesterday, yesterday⟩

namespace EnumsTs

/-- Start instant of getYesterday in the Period variant of
src/types/enums.ts: dayjs().utcOffset(o).startOf("day").subtract(1, "day"). -/
def getYesterdayStart (p : Period) (now : Int) : Dayjs :=
  (((dayjsNow now).utcOffset (p.utcOffset.getD 0)).startOfDay).subtractDays 1

/-- End instant of getYesterday in the Period variant of
src/types/enums.ts: dayjs().utcOffset(o).endOf("day").subtract(1, "day"). -/
def getYesterdayEnd (p : Period) (now : Int) : Dayjs :=
  (((dayjsNow now).utcOffset (p.utcOffset.getD 0)).endOfDay).subtractDays 1

/-- getYesterday of the src/types/enums.ts variant. -/
def getYesterday (p : Period) (now : Int) : DateRange :=
  ⟨(getYesterdayStart p now).format p.dateformat,
    (getYesterdayEnd p now).format p.dateformat⟩

end EnumsTs

/-- Start instant of getLastWeek: dayjs().utcOffset(o).weekday(-6). (The
enums.ts variant additionally evaluates lastMonday.startOf("day") but
discards the result, dayjs values being immutable, so both variants return
this value.) -/
def getLastWeekStart (p : Period) (now : Int) : Dayjs :=
  ((dayjsNow now).utcOffset (p.utcOffset.getD 0)).weekday (-6)

/-- End instant of getLastWeek: dayjs().utcOffset(o).weekday(0). -/
def getLastWeekEnd (p : Period) (now : Int) : Dayjs :=
  ((dayjsNow now).utcOffset (p.utcOffset.getD 0)).weekday 0

/-- Period.getLastWeek. -/
def Period.getLastWeek (p : Period) (now : Int) : DateRange :=
  ⟨(getLastWeekStart p now).format p.dateformat,
    (getLastWeekEnd p now).format p.dateformat⟩

/-- Start instant of getThisWeek: dayjs().utcOffset(o).day(1). (The
enums.ts variant additionally evaluates currMonday.startOf("day") but
discards the result, so both variants return this value, with the current
time of day.) -/
def getThisWeekStart (p : Period) (now : Int) : Dayjs :=
  ((dayjsNow now).utcOffset (p.utcOffset.getD 0)).day 1

/-- End instant of getThisWeek: dayjs().utcOffset(o).day(7); the discarded
currSunday.endOf("day") of the enums.ts variant has no effect. -/
def getThisWeekEnd (p : Period) (now : Int) : Dayjs :=
  ((dayjsNow now).utcOffset (p.utcOffset.getD 0)).day 7

/-- Period.getThisWeek. -/
def Period.getThisWeek (p : Period) (now : Int) : DateRange :=
  ⟨(getThisWeekStart p now).format p.dateformat,
    (getThisWeekEnd p now).format p.dateformat⟩

/-- Start instant of getThisMonth: dayjs().utcOffset(o).startOf("month"). -/
def getThisMonthStart (p : Period) (now : Int) : Dayjs :=
  ((dayjsNow now).utcOffset (p.utcOffset.getD 0)).startOfMonth

/-- End instant of getThisMonth: dayjs().utcOffset(o).endOf("month"). -/
def getThisMonthEnd (p : Period) (now : Int) : Dayjs :=
  ((dayjsNow now).utcOffset (p.utcOffset.getD 0)).endOfMonth

/-- Period.getThisMonth. -/
def Period.getThisMonth (p : Period) (now : Int) : DateRange :=
  ⟨(getThisMonthStart p now).format p.dateformat,
    (getThisMonthEnd p now).format p.dateformat⟩

/-- Start instant of getLastMonth:
dayjs().utcOffset(o).subtract(1, "month").startOf("month"). -/
def getLastMonthStart (p : Period) (now : Int) : Dayjs :=
  (((dayjsNow now).utcOffset (p.utcOffset.getD 0)).subtractMonths 1).startOfMonth

/-- End instant of getLastMonth:
dayjs().utcOffset(o).subtract(1, "month").endOf("month"). -/
def getLastMonthEnd (p : Period) (now : Int) : Dayjs :=
  (((dayjsNow now).utcOffset (p.utcOffset.getD 0)).subtractMonths 1).endOfMonth

/-- Period.getLastMonth. -/
def Period.getLastMonth (p : Period) (now : Int) : DateRange :=
  ⟨(getLastMonthStart p now).format p.dateformat,
    (getLastMonthEnd p now).format p.dateformat⟩

/-- Period.createDefinedRange: the switch over the PresetDateRange value
(a string enum at runtime); any unrecognized value reaches the default
branch and throws. -/
def Period.createDefinedRange (p : Period) (now : Int) (daterange : String) :
    Except String DateRange :=
  match daterange with
  | "LAST_MONTH" => .ok (p.getLastMonth now)
  | "LAST_WEEK" => .ok (p.getLastWeek now)
  | "THIS_MONTH" => .ok (p.getThisMonth now)
  | "THIS_WEEK" => .ok (p.getThisWeek now)
  | "TODAY" => .ok (p.getToday now)
  | "YESTERDAY" => .ok (p.getYesterday now)
  | other => .error ("Unsupported DateRange: " ++ other)

/-- End instant of createPastDateRange: now at the offset, minus one day
when includingToday is false. (The enums.ts variant evaluates
endDate.endOf("day") and discards the result, so both variants return this
value.) -/
def createPastDateRangeEnd (p : Period) (now : Int) (includingToday : Bool) :
    Dayjs :=
  if includingToday then (dayjsNow now).utcOffset (p.utcOffset.getD 0)
  else ((dayjsNow now).utcOffset (p.utcOffset.getD 0)).subtractDays 1

/-- Start instant of createPastDateRange: endDate.subtract(prevDays, "day");
the discarded startDate.startOf("day") of the enums.ts variant has no
effect. -/
def createPastDateRangeStart (p : Period) (now prevDays : Int)
    (includingToday : Bool) : Dayjs :=
  (createPastDateRangeEnd p now includingToday).subtractDays prevDays

/-- Period.createPastDateRange: both boundaries formatted as-is. -/
def Period.createPastDateRange (p : Period) (now prevDays : Int)
    (includingToday : Bool) : DateRange :=
  ⟨(createPastDateRangeStart p now prevDays includingToday).format p.dateformat,
    (createPastDateRangeEnd p now includingToday).format p.dateformat⟩

/-- Leading run of decimal digits of a character list and the remainder:
the greedy digit group of the offset regular expression. -/
def takeDigits : List Char → List Char × List Char
  | [] => ([], [])
  | c :: rest =>
    if c.isDigit then
      let p := takeDigits rest
      (c :: p.1, p.2)
    else ([], c :: rest)

/-- The JS call offset.match of the pattern: a sign, one or more digits, an
optional colon-and-digits group, searched left to right (leftmost match,
greedy digits). Returns the sign character, the hour digit group and the
optional minute digit group. -/
def matchOffsetAux : List Char → Option (Char × String × Option String)
  | [] => none
  | c :: rest =>
    if c = '+' ∨ c = '-' then
      match takeDigits rest with
      | ([], _) => matchOffsetAux rest
      | (ds, r) =>
        let minutes :=
          match r with
          | ':' :: r2 =>
            match takeDigits r2 with
            | ([], _) => none
            | (ms, _) => some (String.mk ms)
          | _ => none
        some (c, String.mk ds, minutes)
    else matchOffsetAux rest

/-- Offset regular expression match on a string. -/
def matchOffset (s : String) : Option (Char × String × Option String) :=
  matchOffsetAux s.data

/-- Value of a decimal digit string. -/
def digitsToNat (s : String) : Nat :=
  s.data.foldl (fun a c => a * 10 + (c.toNat - Char.toNat '0')) 0

/-- The parseFloat(sign + hour) call on a matched sign character and digit
group: the signed integer value. -/
def parseSignedInt (sign : Char) (digits : String) : Int :=
  if sign = '-' then -(digitsToNat digits : Int) else (digitsToNat digits : Int)

/-- Period.calculateUtcOffset. The Intl.DateTimeFormat collaborator is
modelled by its output: timeZoneName is the resolved short timezone name
(none when the formatToParts lookup finds no timeZoneName part). The code
slices off the first three characters; an absent or empty remainder returns
0, an unparseable remainder throws, and a match yields
parseFloat(sign + hour) * 60, ignoring the minute group. -/
def calculateUtcOffset (timeZone : String) (timeZoneName : Option String) :
    Except String Int :=
  if timeZone = "" then .ok 0
  else
    match timeZoneName with
    | none => .ok 0
    | some name =>
      let offset := name.drop 3
      if offset = "" then .ok 0
      else
        match matchOffset offset with
        | none => .error ("cannot parse timezone name: " ++ name)
        | some mData => .ok (parseSignedInt mData.1 mData.2.1 * 60)

/-- Units of Intl.RelativeTimeFormat used by the timeAgo bucket table. -/
inductive RTFUnit where
| second
| minute
| hour
| day
| week
| month
| year
deriving DecidableEq, Repr

/-- The ranges table of timeAgo: ascending thresholds in seconds paired with
units; none stands for the final Infinity threshold. -/
def ranges : List (Option Int × RTFUnit) :=
  [(some 60, .second), (some 3600, .minute), (some 86400, .hour),
    (some 604800, .day), (some 2592000, .week), (some 31536000, .month),
    (none, .year)]

/-- The JS expression Math.round(a / b) for an integer a and positive
integer b: rounds halves toward positive infinity. -/
def jsRound (a b : Int) : Int := (2 * a + b).fdiv (2 * b)

/-- The selection loop of timeAgo. diff is the (possibly NaN, modelled as
none) diffInSeconds value; prev carries the previous bucket threshold
(ranges at i-1, or 1 for the first bucket). A NaN diff fails every
comparison, including the one against Infinity, so the loop falls through
and returns none. -/
def timeAgoLoop (diff : Option Int) (prev : Int) :
    List (Option Int × RTFUnit) → Option (RTFUnit × Int)
  | [] => none
  | (threshold, unit) :: rest =>
    match diff, threshold with
    | none, t => timeAgoLoop none (t.getD prev) rest
    | some d, some t =>
      if |d| < t then some (unit, jsRound d prev)
      else timeAgoLoop (some d) t rest
    | some d, none => some (unit, jsRound d prev)

/-- The timeAgo function of src/utils/timeAgo.ts, modelled up to the final
locale rendering: it returns the (unit, value) pair handed to the
Intl.RelativeTimeFormat renderer. dateMs is the parsed input instant, none
when the date is invalid (getTime then yields NaN); diffInSeconds is
Math.floor of the millisecond difference over 1000, and when the loop falls
through the trailing statement returns the pair (second, 0). -/
def timeAgo (dateMs : Option Int) (nowMs : Int) : RTFUnit × Int :=
  let diffInSeconds := dateMs.map (fun t => (t - nowMs).fdiv 1000)
  match timeAgoLoop diffInSeconds 1 ranges with
  | some r => r
  | none => (.second, 0)

/-- Modelled from the spec (claim C7 wording): the bucket table written as
explicit threshold comparisons on the absolute delta, each bucket reporting
round of the delta over the previous bucket threshold. -/
def timeAgoSpec (diff : Int) : RTFUnit × Int :=
  if |diff| < 60 then (.second, jsRound diff 1)
  else if |diff| < 3600 then (.minute, jsRound diff 60)
  else if |diff| < 86400 then (.hour, jsRound diff 3600)
  else if |diff| < 604800 then (.day, jsRound diff 86400)
  else if |diff| < 2592000 then (.week, jsRound diff 604800)
  else if |diff| < 31536000 then (.month, jsRound diff 2592000)
  else (.year, jsRound diff 31536000)

/-- Day index of the Monday of the ISO week (Monday day 1 .. Sunday day 7)
containing a given day index; stated from the claim wording for comparison
with what the code computes. -/
def isoWeekMonday (day : Int) : Int :=
  day - (((day + 4).emod 7 + 6).emod 7)

/-- Floor division by the day length: adding a remainder below one day does
not change the quotient of a whole-day multiple. -/
theorem fdiv_mul_add_day (q r : Int) (h0 : 0 ≤ r) (h1 : r < 86400000) :
    (q * 86400000 + r).fdiv 86400000 = q := by
  rw [Int.fdiv_eq_ediv _ (by norm_num : (0 : Int) ≤ 86400000), Int.add_comm,
    Int.add_mul_ediv_right _ _ (by norm_num : (86400000 : Int) ≠ 0),
    Int.ediv_eq_zero_of_lt h0 h1, Int.zero_add]

/-- Resetting a value to the start of its day keeps its local calendar
day. -/
theorem localDay_startOfDay (d : Dayjs) : d.startOfDay.localDay = d.localDay := by
  have h : d.localDay * 86400000 - d.offset * 60000 + d.offset * 60000 =
      d.localDay * 86400000 + 0 := by ring
  simp only [Dayjs.startOfDay, Dayjs.localDay, Dayjs.localMs] at h ⊢
  rw [h, fdiv_mul_add_day _ _ le_rfl (by norm_num)]

/-- Moving a value to the end of its day keeps its local calendar day. -/
theorem localDay_endOfDay (d : Dayjs) : d.endOfDay.localDay = d.localDay := by
  have h : d.localDay * 86400000 + 86399999 - d.offset * 60000 +
      d.offset * 60000 = d.localDay * 86400000 + 86399999 := by ring
  simp only [Dayjs.endOfDay, Dayjs.localDay, Dayjs.localMs] at h ⊢
  rw [h, fdiv_mul_add_day _ _ (by norm_num) (by norm_num)]

/-- C8: for every current instant and configured offset (and hence either
output format), the end instant of the TODAY range is strictly later than
its start instant, and both fall on the same local calendar day in the
configured offset. -/
theorem getToday_ordered_same_day : ∀ (p : Period) (now : Int),
    (getTodayStart p now).ms < (getTodayEnd p now).ms ∧
    (getTodayEnd p now).localDay = (getTodayStart p now).localDay := by
  intro p now
  constructor
  · simp only [getTodayStart, getTodayEnd, dayjsNow, Dayjs.utcOffset,
      Dayjs.startOfDay, Dayjs.endOfDay]
    omega
  · rw [getTodayStart, getTodayEnd, localDay_endOfDay, localDay_startOfDay]

/-- C5: createPastDateRange returns end = the current instant (minus one
day when includingToday is false) at the configured offset, start = end
minus prevDays days with no start-of-day or end-of-day normalization, and a
negative prevDays yields a start strictly after the end. -/
theorem createPastDateRange_boundaries :
    ∀ (p : Period) (now prevDays : Int) (includingToday : Bool),
    ((createPastDateRangeEnd p now includingToday).ms =
      if includingToday then now else now - 86400000) ∧
    (createPastDateRangeEnd p now includingToday).offset =
      p.utcOffset.getD 0 ∧
    (createPastDateRangeStart p now prevDays includingToday).ms =
      (createPastDateRangeEnd p now includingToday).ms -
        prevDays * 86400000 ∧
    (createPastDateRangeStart p now prevDays includingToday).offset =
      p.utcOffset.getD 0 ∧
    (prevDays < 0 →
      (createPastDateRangeEnd p now includingToday).ms <
        (createPastDateRangeStart p now prevDays includingToday).ms) := by
  intro p now prevDays includingToday
  cases includingToday <;>
    refine ⟨?_, ?_, ?_, ?_, fun h => ?_⟩ <;>
      simp only [createPastDateRangeEnd, createPastDateRangeStart,
        Dayjs.subtractDays, dayjsNow, Dayjs.utcOffset, if_true, if_false,
        Bool.false_eq_true, Bool.true_eq_false, ite_true, ite_false] <;>
      omega

/-- C5 witness: with offset absent, now = 0, prevDays = -3 and
includingToday = true the end instant lies strictly before the start
instant. -/
theorem createPastDateRange_boundaries_witness :
    (createPastDateRangeEnd ⟨none, DateFormat.YYYY_MM_DD⟩ 0 true).ms <
      (createPastDateRangeStart ⟨none, DateFormat.YYYY_MM_DD⟩ 0 (-3) true).ms :=
  (createPastDateRange_boundaries ⟨none, DateFormat.YYYY_MM_DD⟩ 0 (-3)
    true).2.2.2.2 (by norm_num)

/-- C10: for a fixed current instant, the span of createPastDateRange is
always exactly prevDays days for both includingToday values, and the
includingToday = false range is the includingToday = true range with both
boundaries shifted one day earlier. -/
theorem createPastDateRange_span_shift :
    ∀ (p : Period) (now prevDays : Int) (includingToday : Bool),
    (createPastDateRangeEnd p now includingToday).ms -
      (createPastDateRangeStart p now prevDays includingToday).ms =
        prevDays * 86400000 ∧
    (createPastDateRangeStart p now prevDays false).ms =
      (createPastDateRangeStart p now prevDays true).ms - 86400000 ∧
    (createPastDateRangeEnd p now false).ms =
      (createPastDateRangeEnd p now true).ms - 86400000 := by
  intro p now prevDays includingToday
  cases includingToday <;>
    refine ⟨?_, ?_, ?_⟩ <;>
      simp only [createPastDateRangeEnd, createPastDateRangeStart,
        Dayjs.subtractDays, dayjsNow, Dayjs.utcOffset, ite_true, ite_false,
        Bool.false_eq_true, Bool.true_eq_false] <;>
      omega

/-- C6: createDefinedRange maps each of the six preset values to the
matching range method, and every other value reaches the default branch and
throws the unsupported-range error. -/
theorem createDefinedRange_dispatch : ∀ (p : Period) (now : Int),
    p.createDefinedRange now ("LAST_MONTH") = .ok (p.getLastMonth now) ∧
    p.createDefinedRange now ("LAST_WEEK") = .ok (p.getLastWeek now) ∧
    p.createDefinedRange now ("THIS_MONTH") = .ok (p.getThisMonth now) ∧
    p.createDefinedRange now ("THIS_WEEK") = .ok (p.getThisWeek now) ∧
    p.createDefinedRange now ("TODAY") = .ok (p.getToday now) ∧
    p.createDefinedRange now ("YESTERDAY") = .ok (p.getYesterday now) ∧
    ∀ s : String,
      s ∉ (["LAST_MONTH", "LAST_WEEK", "THIS_MONTH", "THIS_WEEK", "TODAY",
        "YESTERDAY"] : List String) →
      p.createDefinedRange now s = .error ("Unsupported DateRange: " ++ s) := by
  intro p now
  refine ⟨rfl, rfl, rfl, rfl, rfl, rfl, ?_⟩
  intro s hs
  simp only [List.mem_cons, List.not_mem_nil, or_false, not_or] at hs
  obtain ⟨h1, h2, h3, h4, h5, h6⟩ := hs
  unfold Period.createDefinedRange
  split
  · exact absurd rfl h1
  · exact absurd rfl h2
  · exact absurd rfl h3
  · exact absurd rfl h4
  · exact absurd rfl h5
  · exact absurd rfl h6
  · rfl

/-- C6 witness: an unrecognized preset value throws. -/
theorem createDefinedRange_dispatch_witness :
    Period.createDefinedRange ⟨none, DateFormat.YYYY_MM_DD⟩ 0 ("NEXT_WEEK") =
      .error ("Unsupported DateRange: NEXT_WEEK") :=
  (createDefinedRange_dispatch ⟨none, DateFormat.YYYY_MM_DD⟩ 0).2.2.2.2.2.2
    ("NEXT_WEEK") (by decide)

/-- C3: whenever the text after the first three characters of the resolved
short timezone name matches the offset pattern (a sign, hour digits and an
optional colon-and-minutes group), calculateUtcOffset returns exactly the
signed hour value times 60 minutes; the matched minute group does not
appear in the result. -/
theorem calculateUtcOffset_hours_only :
    ∀ (timeZone name : String) (sign : Char) (hour : String)
      (minutes : Option String),
      timeZone ≠ "" →
      matchOffset (name.drop 3) = some (sign, hour, minutes) →
      calculateUtcOffset timeZone (some name) =
        .ok (parseSignedInt sign hour * 60) := by
  intro tz name sign hour minutes htz hm
  have hne : ¬(name.drop 3 = "") := by
    intro h0
    rw [h0] at hm
    have hempty : matchOffset ("") = none := rfl
    rw [hempty] at hm
    exact Option.noConfusion hm
  simp only [calculateUtcOffset, if_neg htz, if_neg hne, hm]

/-- C3 witness: a UTC+5:30 style name yields 300 minutes, the half-hour
remainder being discarded. -/
theorem calculateUtcOffset_hours_only_witness :
    calculateUtcOffset ("Asia/Kolkata") (some ("GMT+5:30")) = .ok 300 := by
  have hm : matchOffset (String.drop ("GMT+5:30") 3) =
      some (('+'), "5", some ("30")) := by decide
  have h2 := calculateUtcOffset_hours_only ("Asia/Kolkata") ("GMT+5:30")
    ('+') "5" (some ("30")) (by decide) hm
  have h3 : parseSignedInt ('+') "5" * 60 = (300 : Int) := by decide
  rw [h3] at h2
  exact h2

/-- C4: with a nonempty timezone argument, calculateUtcOffset returns 0
without error whenever the resolved name carries no text after its first
three characters, and throws exactly when offset text is present but fails
the pattern match. (The embedding is a pure function: a thrown error is
just the error value of the call, and no state exists to be mutated.) -/
theorem calculateUtcOffset_default_and_error_iff :
    ∀ (timeZone : String) (timeZoneName : Option String),
      timeZone ≠ "" →
      (((timeZoneName.getD "").drop 3 = "") →
        calculateUtcOffset timeZone timeZoneName = .ok 0) ∧
      ((∃ msg, calculateUtcOffset timeZone timeZoneName = .error msg) ↔
        ((timeZoneName.getD "").drop 3 ≠ "" ∧
          matchOffset ((timeZoneName.getD "").drop 3) = none)) := by
  intro tz tzName htz
  cases tzName with
  | none =>
    have hd : (("" : String)).drop 3 = "" := rfl
    refine ⟨fun _ => by simp [calculateUtcOffset, if_neg htz], ?_⟩
    constructor
    · rintro ⟨msg, h⟩
      simp [calculateUtcOffset, if_neg htz] at h
    · rintro ⟨h1, _⟩
      exact absurd hd h1
  | some name =>
    simp only [Option.getD_some]
    by_cases hoff : name.drop 3 = ""
    · refine ⟨fun _ => by simp [calculateUtcOffset, if_neg htz, hoff], ?_⟩
      constructor
      · rintro ⟨msg, h⟩
        simp [calculateUtcOffset, if_neg htz, hoff] at h
      · rintro ⟨h1, _⟩
        exact absurd hoff h1
    · refine ⟨fun h0 => absurd h0 hoff, ?_⟩
      cases hmatch : matchOffset (name.drop 3) with
      | none =>
        constructor
        · intro _
          exact ⟨hoff, rfl⟩
        · intro _
          exact ⟨"cannot parse timezone name: " ++ name,
            by simp [calculateUtcOffset, if_neg htz, if_neg hoff, hmatch]⟩
      | some v =>
        constructor
        · rintro ⟨msg, h⟩
          simp [calculateUtcOffset, if_neg htz, if_neg hoff, hmatch] at h
        · rintro ⟨_, hnone⟩
          exact Option.noConfusion hnone

/-- C4 witness: a resolved name of exactly three characters (no offset
text) yields offset 0 without an error. -/
theorem calculateUtcOffset_default_and_error_iff_witness :
    calculateUtcOffset ("Etc/UTC") (some ("UTC")) = .ok 0 :=
  (calculateUtcOffset_default_and_error_iff ("Etc/UTC") (some ("UTC"))
    (by decide)).1 (by decide)

/-- C7: for every finite delta, timeAgo selects the first bucket whose
threshold strictly exceeds the absolute delta in seconds (60, 3600, 86400,
604800, 2592000, 31536000, then the unbounded year bucket) and reports
round of the signed delta over the previous bucket threshold (1 for the
first bucket). -/
theorem timeAgo_bucket_table : ∀ (dateMs nowMs : Int),
    timeAgo (some dateMs) nowMs = timeAgoSpec ((dateMs - nowMs).fdiv 1000) := by
  intro dateMs nowMs
  show (match timeAgoLoop (some ((dateMs - nowMs).fdiv 1000)) 1 ranges with
    | some r => r
    | none => (.second, 0)) = timeAgoSpec ((dateMs - nowMs).fdiv 1000)
  generalize (dateMs - nowMs).fdiv 1000 = d
  simp only [ranges, timeAgoLoop, timeAgoSpec]
  split_ifs <;> rfl

/-- C9: an unparseable date (NaN parse result) does not raise an error:
every bucket comparison against NaN is false, the loop falls through, and
the trailing statement still hands the renderer the pair (second, 0), a
formatted output. -/
theorem timeAgo_invalid_date_total : ∀ (nowMs : Int),
    timeAgo none nowMs = (RTFUnit.second, 0) := by
  intro nowMs
  rfl

/-- C1 (bug evidence): at the instant 1734264000000 ms, which is Sunday
2024-12-15 12:00:00 UTC, with no configured timezone, getThisWeek starts on
the local day 7 days after the Monday of the current ISO week (that is, on
Monday of the following ISO week, 2024-12-16), keeps the noon time of day
instead of 00:00:00.000 on both boundaries, and formats a start of
2024-12-16T12:00:00; the claimed Monday 00:00:00.000 start of the current
ISO week would be 2024-12-09T00:00:00.000. -/
theorem getThisWeek_not_iso_week_start :
    (dayjsNow 1734264000000).dayOfWeek = 0 ∧
    (getThisWeekStart ⟨none, DateFormat.RFC3339⟩ 1734264000000).localDay =
      isoWeekMonday ((dayjsNow 1734264000000).localDay) + 7 ∧
    (getThisWeekStart ⟨none, DateFormat.RFC3339⟩ 1734264000000).localTimeOfDay =
      43200000 ∧
    (getThisWeekEnd ⟨none, DateFormat.RFC3339⟩ 1734264000000).localTimeOfDay =
      43200000 ∧
    (Period.getThisWeek ⟨none, DateFormat.RFC3339⟩ 1734264000000).start =
      ("2024-12-16T12:00:00.000000Z") := by
  refine ⟨by decide, by decide, by decide, by decide, by decide⟩

/-- C2 (bug evidence and correct variant): at Sunday 2024-12-15 12:00:00
UTC with no configured timezone, the getYesterday of src/index.ts returns
the same formatted value 2024-12-14T12:00:00 for start and end, the
current time of day rather than 00:00:00.000 and 23:59:59.999, against its
own documentation; the getYesterday variant of src/types/enums.ts does
return, for every Period and instant, the start of the previous local
calendar day and its end at 23:59:59.999. -/
theorem getYesterday_index_bug_enums_correct :
    ((Period.getYesterday ⟨none, DateFormat.RFC3339⟩ 1734264000000).start =
      (Period.getYesterday ⟨none, DateFormat.RFC3339⟩ 1734264000000).«end» ∧
    (getYesterdayInstant ⟨none, DateFormat.RFC3339⟩
      1734264000000).localTimeOfDay = 43200000 ∧
    (Period.getYesterday ⟨none, DateFormat.RFC3339⟩ 1734264000000).start =
      ("2024-12-14T12:00:00.000000Z")) ∧
    ∀ (p : Period) (now : Int),
      (EnumsTs.getYesterdayStart p now).localMs =
        (((dayjsNow now).utcOffset (p.utcOffset.getD 0)).localDay - 1) *
          86400000 ∧
      (EnumsTs.getYesterdayEnd p now).localMs =
        (((dayjsNow now).utcOffset (p.utcOffset.getD 0)).localDay - 1) *
          86400000 + 86399999 := by
  refine ⟨⟨rfl, by decide, by decide⟩, ?_⟩
  intro p now
  constructor <;>
    simp only [EnumsTs.getYesterdayStart, EnumsTs.getYesterdayEnd,
      Dayjs.startOfDay, Dayjs.endOfDay, Dayjs.subtractDays, Dayjs.localMs,
      Dayjs.localDay, dayjsNow, Dayjs.utcOffset] <;>
    ring

end JsDaterange
